import Mathlib

/-!
Verification of the facial-recognition system's core logic against its
natural-language specification.

The development shallowly embeds the relevant Rust functions:

* `compare_faces`   — `DeepFaceRecognizer::compare_faces` (src/face_recognition.rs):
  cosine similarity over feature vectors.  The source works on `f32`; the
  embedding is polymorphic over a linear ordered field (instantiated at `ℝ`
  for the numeric claims, with `Real.sqrt` standing for `f32::sqrt`, and at
  `ℚ` for executable witnesses), with the square-root function passed
  explicitly.
* `recognize_face`  — `recognize_face` (src/main.rs): the nested
  first-match-wins scan over detected regions and registry entries.
  External effects (filesystem probe, `imread`, `Mat::roi`, feature
  extraction) are modelled by an explicit environment of oracle functions
  returning `Except`, mirroring Rust's `Result` and the `?` operator.
  The source returns `Ok(true)` after logging the matched record's name;
  the embedding returns the matched record itself (`Option FaceRecord`),
  so that the identity of the match is observable.
* `scan_database`   — `DatabaseMonitor::scan_database` (src/monitor.rs):
  directory diffing.  The filesystem is an oracle environment; the
  `&mut self` state is threaded explicitly, and the function returns the
  (added, removed) report together with the post-state, so that
  atomicity-on-error is expressible.
* `remove_face`     — the `Remove` command of src/bin/cli.rs:
  `retain` by id, persisting (and reporting "removed") only when the
  record count decreased.
* `RecognitionResponse` writes — the `last_result` updates in `main`
  (src/main.rs).
-/

namespace FacialRecognition

/-! ## Feature comparison (src/face_recognition.rs, `compare_faces`) -/

section Similarity

variable {α : Type} [LinearOrderedField α]

/-- Accumulator loop of `compare_faces`: mirrors the Rust
`for i in 0..features1.len()` loop accumulating `dot_product`, `norm1`,
`norm2`.  The Rust loop indexes both slices; it is only reached when the
lengths are equal, which the structural recursion reflects. -/
def simLoop : List α → List α → α → α → α → α × α × α
  | [], _, d, n1, n2 => (d, n1, n2)
  | _ :: _, [], d, n1, n2 => (d, n1, n2)
  | x :: xs, y :: ys, d, n1, n2 =>
      simLoop xs ys (d + x * y) (n1 + x * x) (n2 + y * y)

/-- `DeepFaceRecognizer::compare_faces`.  Returns 0 on length mismatch,
0 when either accumulated squared norm is exactly zero, and otherwise
`dot_product / (sqrt norm1 * sqrt norm2)`.  `sqrtFn` stands for
`f32::sqrt`. -/
def compare_faces (sqrtFn : α → α) (features1 features2 : List α) : α :=
  if features1.length ≠ features2.length then 0
  else
    let acc := simLoop features1 features2 0 0 0
    if acc.2.1 = 0 ∨ acc.2.2 = 0 then 0
    else acc.1 / (sqrtFn acc.2.1 * sqrtFn acc.2.2)

/-- Mathematical dot product, used to state what the loop computes. -/
def dotProduct (a b : List α) : α := (List.zipWith (· * ·) a b).sum

/-- Sum of squares of a vector (the square of its Euclidean norm). -/
def sumSq (a : List α) : α := (a.map fun x => x * x).sum

end Similarity

/-! ## Data model (src/database.rs) -/

/-- `FaceRecord` (src/database.rs): one authorized identity.  The creation
timestamp is kept as an integer (seconds); its value plays no role in the
verified claims. -/
structure FaceRecord where
  id : String
  name : String
  photo_path : String
  created_at : Int
deriving DecidableEq, Repr

/-- `FaceDatabase` (src/database.rs): the in-memory registry snapshot. -/
structure FaceDatabase where
  records : List FaceRecord
deriving DecidableEq, Repr

/-- `FaceDatabase::get_authorized_faces`. -/
def get_authorized_faces (db : FaceDatabase) : List FaceRecord := db.records

/-! ## Recognition engine (src/main.rs, `recognize_face`)

The external effects the function performs are collected in an oracle
environment.  `Frame` stands for `Mat` frames, `Rect` for bounding boxes,
`Image` for the `Mat`s produced by `Mat::roi` / `imread`, `ε` for the boxed
error type, and `α` for the `f32` scalar of feature vectors. -/

section Engine

variable {Frame Rect Image ε α : Type} [LinearOrderedField α]

/-- Oracle environment for `recognize_face`: `pathExists` models
`Path::new(p).exists()`, `imread` models `opencv::imgcodecs::imread`,
`roi` models `Mat::roi(frame, rect)`, `extract_features` models
`DeepFaceRecognizer::extract_features`, and `sqrtFn` models `f32::sqrt`
inside `compare_faces`. -/
structure RecEnv (Frame Rect Image ε α : Type) where
  pathExists : String → Bool
  imread : String → Except ε Image
  roi : Frame → Rect → Except ε Image
  extract_features : Image → Except ε (List α)
  sqrtFn : α → α

/-- Inner loop of `recognize_face`: `for record in authorized_faces`.
A record whose photo file is missing is skipped; `imread` and
`extract_features` errors propagate (Rust `?`); the first record whose
similarity with the detected features is strictly above `0.7` is returned
(the source logs its name and returns `Ok(true)`). -/
def scanRecords (env : RecEnv Frame Rect Image ε α) (detected : List α) :
    List FaceRecord → Except ε (Option FaceRecord)
  | [] => .ok none
  | record :: rest =>
    if env.pathExists record.photo_path then
      match env.imread record.photo_path with
      | .error e => .error e
      | .ok authorized_face =>
        match env.extract_features authorized_face with
        | .error e => .error e
        | .ok authorized_features =>
          if 7 / 10 < compare_faces env.sqrtFn detected authorized_features then
            .ok (some record)
          else
            scanRecords env detected rest
    else
      scanRecords env detected rest

/-- Outer loop of `recognize_face`: `for face_rect in faces`.  `Mat::roi`
and `extract_features` errors propagate (Rust `?`); a match found in the
inner loop returns immediately. -/
def scanFaces (env : RecEnv Frame Rect Image ε α) (frame : Frame)
    (records : List FaceRecord) : List Rect → Except ε (Option FaceRecord)
  | [] => .ok none
  | face_rect :: rest =>
    match env.roi frame face_rect with
    | .error e => .error e
    | .ok face_mat =>
      match env.extract_features face_mat with
      | .error e => .error e
      | .ok detected_features =>
        match scanRecords env detected_features records with
        | .error e => .error e
        | .ok (some record) => .ok (some record)
        | .ok none => scanFaces env frame records rest

/-- `recognize_face` (src/main.rs).  Returns `.ok none` where the source
returns `Ok(false)`, and `.ok (some record)` where the source logs
`record.name` and returns `Ok(true)`. -/
def recognize_face (env : RecEnv Frame Rect Image ε α) (frame : Frame)
    (faces : List Rect) (face_db : FaceDatabase) :
    Except ε (Option FaceRecord) :=
  let authorized_faces := get_authorized_faces face_db
  if authorized_faces.isEmpty then .ok none
  else scanFaces env frame authorized_faces faces

/-- A registry entry qualifies for `detected` when its photo file exists,
loading and featurizing it succeed, and the similarity is strictly above
the 0.7 threshold. -/
def entryQualifies (env : RecEnv Frame Rect Image ε α) (detected : List α)
    (r : FaceRecord) : Prop :=
  env.pathExists r.photo_path = true ∧
  ∃ img feats, env.imread r.photo_path = .ok img ∧
    env.extract_features img = .ok feats ∧
    7 / 10 < compare_faces env.sqrtFn detected feats

/-- A registry entry is passed over without a match and without an error:
either its photo file is missing, or it is processed successfully with a
similarity at or below the threshold. -/
def entrySkippedOrBelow (env : RecEnv Frame Rect Image ε α) (detected : List α)
    (r : FaceRecord) : Prop :=
  env.pathExists r.photo_path = false ∨
  ∃ img feats, env.imread r.photo_path = .ok img ∧
    env.extract_features img = .ok feats ∧
    compare_faces env.sqrtFn detected feats ≤ 7 / 10

/-- A detected region is processed cleanly against the whole registry with
no match: cropping and featurizing succeed and the inner scan returns
`none`. -/
def regionNoMatch (env : RecEnv Frame Rect Image ε α) (frame : Frame)
    (records : List FaceRecord) (rect : Rect) : Prop :=
  ∃ img detected, env.roi frame rect = .ok img ∧
    env.extract_features img = .ok detected ∧
    scanRecords env detected records = .ok none

end Engine

/-! ## Registry monitor (src/monitor.rs, `DatabaseMonitor::scan_database`)

The filesystem is an oracle environment; the `&mut self` receiver is
threaded explicitly.  `scan_database` returns the pair of reports the
source prints ("New photo added" / "Photo removed") together with the
monitor state after the call, so that both the diffing behaviour and
atomicity on error are observable. -/

/-- One entry yielded by `fs::read_dir`: its file name and its
`path.extension()` (`none` when the path has no extension).  The source's
`path.file_name().unwrap()` is modelled by storing the name directly. -/
structure MonitorDirEntry where
  file_name : String
  extension : Option String
deriving DecidableEq, Repr

/-- Filesystem oracle for `scan_database`.  `dirExists` models
`Path::new("database").exists()`; `create_dir` models
`fs::create_dir_all`; `read_dir` models `fs::read_dir` (the call itself
may fail, and each yielded entry may fail); `modified` models the
`fs::metadata(..)?.modified()?.duration_since(UNIX_EPOCH)?.as_secs()`
chain for a given file name (any link failing is one error). -/
structure FsEnv (ε : Type) where
  dirExists : Bool
  create_dir : Except ε Unit
  read_dir : Except ε (List (Except ε MonitorDirEntry))
  modified : String → Except ε Nat

/-- `DatabaseMonitor` (src/monitor.rs): the monitored face database and
the map of photo file names to modification times, modelled as an
association list with unique keys maintained by `insertKey`. -/
structure DatabaseMonitor where
  face_db : FaceDatabase
  photo_files : List (String × Nat)
deriving DecidableEq, Repr

/-- `HashMap::contains_key` on the association-list model. -/
def containsKey (l : List (String × Nat)) (k : String) : Bool :=
  l.any fun p => p.1 = k

/-- `HashMap::insert` on the association-list model: replaces the value
when the key is present, appends otherwise. -/
def insertKey (l : List (String × Nat)) (k : String) (v : Nat) :
    List (String × Nat) :=
  if containsKey l k then l.map fun p => if p.1 = k then (k, v) else p
  else l ++ [(k, v)]

/-- Models `str::to_lowercase` (ASCII suffices for the extensions the
source compares against). -/
def lowercase (s : String) : String := ⟨s.data.map Char.toLower⟩

/-- The `for entry in fs::read_dir(..)` loop of `scan_database`: builds
`current_files`, keeping only entries with a `jpg`/`jpeg` extension
(case-insensitive) and recording each one's modification time.  Entry
errors and metadata errors propagate (Rust `?`). -/
def collectFiles (env : FsEnv ε) :
    List (Except ε MonitorDirEntry) → List (String × Nat) →
    Except ε (List (String × Nat))
  | [], acc => .ok acc
  | ent :: rest, acc =>
    match ent with
    | .error e => .error e
    | .ok entry =>
      match entry.extension with
      | none => collectFiles env rest acc
      | some ext =>
        if lowercase ext = "jpg" ∨ lowercase ext = "jpeg" then
          match env.modified entry.file_name with
          | .error e => .error e
          | .ok t => collectFiles env rest (insertKey acc entry.file_name t)
        else
          collectFiles env rest acc

/-- The freshly computed directory listing of a scan: `fs::read_dir`
followed by the collection loop, starting from an empty map. -/
def scanListing (env : FsEnv ε) : Except ε (List (String × Nat)) :=
  match env.read_dir with
  | .error e => .error e
  | .ok entries => collectFiles env entries []

/-- `DatabaseMonitor::scan_database` (src/monitor.rs).  The first
component is the result: on success, the list of file names reported as
added and the list reported as removed (in the source, the two `println!`
loops).  The second component is the monitor state after the call; the
source assigns `self.photo_files = current_files` only as the final
statement of the success path, so every early return leaves the state
unchanged. -/
def scan_database (env : FsEnv ε) (m : DatabaseMonitor) :
    Except ε (List String × List String) × DatabaseMonitor :=
  if env.dirExists = false then
    match env.create_dir with
    | .error e => (.error e, m)
    | .ok _ => (.ok ([], []), m)
  else
    match scanListing env with
    | .error e => (.error e, m)
    | .ok current_files =>
      let added := (current_files.map Prod.fst).filter
        fun n => !(containsKey m.photo_files n)
      let removed := (m.photo_files.map Prod.fst).filter
        fun n => !(containsKey current_files n)
      (.ok (added, removed), ⟨m.face_db, current_files⟩)

/-- Projection: the added-files report of a scan result (empty on error). -/
def scanAdded (r : Except ε (List String × List String) × DatabaseMonitor) :
    List String :=
  match r.1 with
  | .ok (a, _) => a
  | .error _ => []

/-- Projection: the removed-files report of a scan result (empty on
error). -/
def scanRemoved (r : Except ε (List String × List String) × DatabaseMonitor) :
    List String :=
  match r.1 with
  | .ok (_, b) => b
  | .error _ => []

/-! ## Registry removal (src/bin/cli.rs, `Commands::Remove`) -/

/-- The `Remove { id }` command of src/bin/cli.rs:
`face_db.records.retain(|record| record.id != *id)`, then `save()` and a
"Successfully removed" report exactly when the record count decreased.
The boolean is `true` when the snapshot was persisted and the removal
reported, `false` when the command reported "No face found". -/
def remove_face (db : FaceDatabase) (id : String) : FaceDatabase × Bool :=
  let retained := db.records.filter fun record => record.id ≠ id
  if retained.length < db.records.length then (⟨retained⟩, true)
  else (⟨retained⟩, false)

/-! ## Recognition decision cell (src/main.rs, `last_result`) -/

/-- `RecognitionResponse` (src/monitor.rs): the shared decision cell
served by the HTTP endpoint. -/
structure RecognitionResponse where
  name : Option String
  recognized : Bool
deriving DecidableEq, Repr

/-- The initial value of `last_result` in `main` (src/main.rs, line 53). -/
def initial_last_result : RecognitionResponse := ⟨none, false⟩

/-- The write `main` performs on `last_result` after a frame with detected
faces, driven by the boolean result of `recognize_face`: the match branch
stores `Some("Authorized User")`/`true`, the no-match branch stores
`None`/`false` (src/main.rs, lines 104-128). -/
def capture_update (matched : Bool) : RecognitionResponse :=
  if matched then ⟨some "Authorized User", true⟩ else ⟨none, false⟩

/-- The invariant claimed of the decision cell: the name is present only
when `recognized` is true. -/
def decision_invariant (r : RecognitionResponse) : Prop :=
  r.name = none ∨ r.recognized = true

/-! ## Concrete instances used to exercise the theorems

Scalars are instantiated at `ℚ`; the tested feature vectors have squared
norm exactly 1, so any square-root function fixing 1 (here `id`) computes
the same similarity the real square root would. -/

/-- Registry entry whose reference photo is missing on disk. -/
def recC1_0 : FaceRecord := ⟨"0", "zero", "missing", 0⟩

/-- First registry entry with an existing photo: similarity 4/5 with the
detected features. -/
def recC1_1 : FaceRecord := ⟨"1", "one", "e1", 0⟩

/-- Later registry entry: similarity 1 (higher than `recC1_1`) with the
detected features. -/
def recC1_2 : FaceRecord := ⟨"2", "two", "e2", 0⟩

/-- Registry used in the first-match scenario. -/
def dbC1 : FaceDatabase := ⟨[recC1_0, recC1_1, recC1_2]⟩

/-- Environment for the first-match scenario: every region crops to image
"d" with features `[1, 0]`; photo "e1" has features `[4/5, 3/5]`
(similarity 4/5) and photo "e2" has features `[1, 0]` (similarity 1);
photo "missing" does not exist on disk. -/
def envC1 : RecEnv Unit Nat String Unit ℚ where
  pathExists s := s ≠ "missing"
  imread s := .ok s
  roi _ _ := .ok "d"
  extract_features s :=
    if s = "d" then .ok [1, 0]
    else if s = "e1" then .ok [4 / 5, 3 / 5]
    else if s = "e2" then .ok [1, 0]
    else .error ()
  sqrtFn := id

/-- Environment whose feature extraction always fails: used to exhibit
that an empty registry short-circuits before any extraction. -/
def envC3 : RecEnv Unit Unit String Unit ℚ where
  pathExists _ := true
  imread s := .ok s
  roi _ _ := .ok "d"
  extract_features _ := .error ()
  sqrtFn := id

/-- Environment for the extraction-failure scenario: region 0 crops to
image "bad", whose featurization fails; region 1 crops to "good", whose
features match the registry photo "ref" exactly. -/
def envC4 : RecEnv Unit Nat String Unit ℚ where
  pathExists _ := true
  imread s := .ok s
  roi _ n := .ok (if n = 0 then "bad" else "good")
  extract_features s :=
    if s = "good" ∨ s = "ref" then .ok [1, 0] else .error ()
  sqrtFn := id

/-- The single registry entry of the extraction-failure scenario. -/
def recC4 : FaceRecord := ⟨"1", "one", "ref", 0⟩

/-- Registry of the extraction-failure scenario. -/
def dbC4 : FaceDatabase := ⟨[recC4]⟩

/-- Filesystem environment whose directory enumeration fails. -/
def envC5 : FsEnv String where
  dirExists := true
  create_dir := .ok ()
  read_dir := .error "boom"
  modified _ := .ok 0

/-- Monitor state with a non-trivial previous listing and registry,
used to observe that a failed scan changes nothing. -/
def mC5 : DatabaseMonitor := ⟨⟨[recC4]⟩, [("old.jpg", 5)]⟩

/-- Filesystem environment listing `{a.jpg, b.jpg}`. -/
def envAB : FsEnv String where
  dirExists := true
  create_dir := .ok ()
  read_dir := .ok [.ok ⟨"a.jpg", some "jpg"⟩, .ok ⟨"b.jpg", some "jpg"⟩]
  modified _ := .ok 0

/-- Filesystem environment listing `{b.jpg, c.jpg}`. -/
def envBC : FsEnv String where
  dirExists := true
  create_dir := .ok ()
  read_dir := .ok [.ok ⟨"b.jpg", some "jpg"⟩, .ok ⟨"c.jpg", some "jpg"⟩]
  modified _ := .ok 0

/-- Fresh monitor (empty previous listing). -/
def m0 : DatabaseMonitor := ⟨⟨[]⟩, []⟩

/-- Monitor state after scanning `{a.jpg, b.jpg}` from `m0`. -/
def mAB : DatabaseMonitor := ⟨⟨[]⟩, [("a.jpg", 0), ("b.jpg", 0)]⟩

/-- The listing computed by scanning `{b.jpg, c.jpg}`. -/
def curBC : List (String × Nat) := [("b.jpg", 0), ("c.jpg", 0)]

/-- Two-record registry used to exercise removal. -/
def dbC7 : FaceDatabase := ⟨[⟨"1", "alice", "p.jpg", 0⟩, ⟨"2", "bob", "q.jpg", 0⟩]⟩

/-! ## Lemmas about the similarity loop -/

section SimilarityLemmas

variable {α : Type} [LinearOrderedField α]

/-- On equally long vectors the accumulator loop computes the dot product
and the two sums of squares, shifted by the initial accumulator values. -/
theorem simLoop_eq (a : List α) :
    ∀ (b : List α), a.length = b.length → ∀ d n1 n2 : α,
      simLoop a b d n1 n2 = (d + dotProduct a b, n1 + sumSq a, n2 + sumSq b) := by
  induction a with
  | nil =>
    intro b h d n1 n2
    have hb : b = [] := List.length_eq_zero.mp h.symm
    subst hb
    simp [simLoop, dotProduct, sumSq]
  | cons x xs ih =>
    intro b h d n1 n2
    cases b with
    | nil => simp at h
    | cons y ys =>
      have h' : xs.length = ys.length := by simpa using h
      simp only [simLoop, ih ys h']
      simp [dotProduct, sumSq, add_assoc]

/-- The dot product of a vector with itself is its sum of squares. -/
theorem dotProduct_self (v : List α) : dotProduct v v = sumSq v := by
  induction v with
  | nil => simp [dotProduct, sumSq]
  | cons x xs ih => simp [dotProduct, sumSq] at ih ⊢

/-- The dot product is commutative. -/
theorem dotProduct_comm (a b : List α) : dotProduct a b = dotProduct b a := by
  unfold dotProduct
  rw [List.zipWith_comm_of_comm]
  exact mul_comm

/-- A sum of squares is non-negative. -/
theorem sumSq_nonneg (v : List ℝ) : 0 ≤ sumSq v := by
  apply List.sum_nonneg
  intro x hx
  obtain ⟨y, _, rfl⟩ := List.mem_map.mp hx
  exact mul_self_nonneg y

/-- A vector with a non-zero component has positive sum of squares. -/
theorem sumSq_pos (v : List ℝ) (x : ℝ) (hx : x ∈ v) (hx0 : x ≠ 0) :
    0 < sumSq v := by
  have h1 : x * x ∈ v.map fun a => a * a := List.mem_map_of_mem _ hx
  have h2 : x * x ≤ sumSq v := by
    apply List.single_le_sum _ _ h1
    intro y hy
    obtain ⟨z, _, rfl⟩ := List.mem_map.mp hy
    exact mul_self_nonneg z
  exact lt_of_lt_of_le (mul_self_pos.mpr hx0) h2

end SimilarityLemmas

/-- C2: `compare_faces` (over the real model of `f32`, with `Real.sqrt`
for `f32::sqrt`) returns 0 when the two vectors have different lengths,
returns 0 when either vector's Euclidean magnitude is exactly zero, and
otherwise returns the dot product divided by the product of the two
Euclidean norms.  It is a total Lean function, hence has no failure mode
on any input. -/
theorem compare_faces_spec (a b : List ℝ) :
    (a.length ≠ b.length → compare_faces Real.sqrt a b = 0) ∧
    (Real.sqrt (sumSq a) = 0 ∨ Real.sqrt (sumSq b) = 0 →
      compare_faces Real.sqrt a b = 0) ∧
    (a.length = b.length →
      Real.sqrt (sumSq a) ≠ 0 → Real.sqrt (sumSq b) ≠ 0 →
      compare_faces Real.sqrt a b =
        dotProduct a b / (Real.sqrt (sumSq a) * Real.sqrt (sumSq b))) := by
  have hmag : ∀ v : List ℝ, Real.sqrt (sumSq v) = 0 ↔ sumSq v = 0 := by
    intro v
    constructor
    · intro h
      have := Real.sqrt_eq_zero'.mp h
      exact le_antisymm this (sumSq_nonneg v)
    · intro h; rw [h, Real.sqrt_zero]
  refine ⟨?_, ?_, ?_⟩
  · intro h
    simp [compare_faces, h]
  · intro h
    by_cases hlen : a.length = b.length
    · have hz : sumSq a = 0 ∨ sumSq b = 0 := by
        rcases h with h | h
        · exact Or.inl ((hmag a).mp h)
        · exact Or.inr ((hmag b).mp h)
      simp [compare_faces, hlen, simLoop_eq a b hlen, hz]
    · simp [compare_faces, hlen]
  · intro hlen ha hb
    have hza : ¬ sumSq a = 0 := fun h => ha ((hmag a).mpr h)
    have hzb : ¬ sumSq b = 0 := fun h => hb ((hmag b).mpr h)
    simp [compare_faces, hlen, simLoop_eq a b hlen, hza, hzb]

/-- Witness for C2: a concrete length-mismatched pair and a concrete zero
vector both evaluate to similarity 0 through the theorem. -/
theorem compare_faces_spec_witness :
    ([(1 : ℝ)].length ≠ [(1 : ℝ), 1].length ∧
      compare_faces Real.sqrt [(1 : ℝ)] [1, 1] = 0) ∧
    (Real.sqrt (sumSq [(0 : ℝ)]) = 0 ∧
      compare_faces Real.sqrt [(0 : ℝ)] [0] = 0) := by
  have h1 : ([(1 : ℝ)].length ≠ [(1 : ℝ), 1].length) := by decide
  have h2 : Real.sqrt (sumSq [(0 : ℝ)]) = 0 := by
    simp [sumSq, Real.sqrt_zero]
  exact ⟨⟨h1, (compare_faces_spec [(1 : ℝ)] [1, 1]).1 h1⟩,
    ⟨h2, (compare_faces_spec [(0 : ℝ)] [0]).2.1 (Or.inl h2)⟩⟩

/-- C9: for every vector with some non-zero component, the similarity of
the vector with itself is exactly 1 (over the real model of `f32`). -/
theorem compare_faces_self (v : List ℝ) (x : ℝ) (hx : x ∈ v) (hx0 : x ≠ 0) :
    compare_faces Real.sqrt v v = 1 := by
  have hpos : 0 < sumSq v := sumSq_pos v x hx hx0
  have hne : sumSq v ≠ 0 := ne_of_gt hpos
  have hsq : Real.sqrt (sumSq v) * Real.sqrt (sumSq v) = sumSq v :=
    Real.mul_self_sqrt (le_of_lt hpos)
  simp only [compare_faces, ne_eq, not_true_eq_false, if_false,
    simLoop_eq v v rfl, dotProduct_self, zero_add]
  simp [hne, hsq, div_self]

/-- Witness for C9: the one-component vector `[2]` has self-similarity
exactly 1. -/
theorem compare_faces_self_witness :
    (2 : ℝ) ∈ [(2 : ℝ)] ∧ (2 : ℝ) ≠ 0 ∧
      compare_faces Real.sqrt [(2 : ℝ)] [2] = 1 := by
  refine ⟨by simp, by norm_num, ?_⟩
  exact compare_faces_self [(2 : ℝ)] 2 (by simp) (by norm_num)

/-- C10 (implicit): the similarity function is commutative, including in
the mismatched-length and zero-magnitude cases (over the real model of
`f32`). -/
theorem compare_faces_comm (a b : List ℝ) :
    compare_faces Real.sqrt a b = compare_faces Real.sqrt b a := by
  by_cases hlen : a.length = b.length
  · simp only [compare_faces]
    rw [if_neg (show ¬a.length ≠ b.length from fun h => h hlen),
      if_neg (show ¬b.length ≠ a.length from fun h => h hlen.symm)]
    simp only [simLoop_eq a b hlen, simLoop_eq b a hlen.symm, zero_add]
    rw [dotProduct_comm a b]
    by_cases hza : sumSq a = 0 <;> by_cases hzb : sumSq b = 0 <;>
      simp [hza, hzb, mul_comm]
  · have hlen' : b.length ≠ a.length := fun h => hlen h.symm
    simp [compare_faces, hlen, hlen']

/-! ## Lemmas about the recognition engine -/

section EngineLemmas

variable {Frame Rect Image ε α : Type} [LinearOrderedField α]

/-- Registry entries that are skipped (missing photo) or score at most the
threshold are passed over: scanning their prefix continues with the rest
of the registry. -/
theorem scanRecords_append_skip (env : RecEnv Frame Rect Image ε α)
    (detected : List α) (pre l : List FaceRecord)
    (h : ∀ p ∈ pre, entrySkippedOrBelow env detected p) :
    scanRecords env detected (pre ++ l) = scanRecords env detected l := by
  induction pre with
  | nil => rfl
  | cons p ps ih =>
    have hrest : ∀ q ∈ ps, entrySkippedOrBelow env detected q :=
      fun q hq => h q (List.mem_cons_of_mem _ hq)
    have hp := h p (List.mem_cons_self _ _)
    rcases hp with hmiss | ⟨img, feats, him, hft, hle⟩
    · simpa [scanRecords, hmiss] using ih hrest
    · by_cases hpe : env.pathExists p.photo_path = true
      · simp only [List.cons_append, scanRecords, hpe, if_true, him, hft]
        rw [if_neg (not_lt.mpr hle)]
        exact ih hrest
      · simpa [scanRecords, hpe] using ih hrest

/-- A qualifying registry entry at the head of the list is returned as the
match, whatever comes after it. -/
theorem scanRecords_head_match (env : RecEnv Frame Rect Image ε α)
    (detected : List α) (r : FaceRecord) (rest : List FaceRecord)
    (hq : entryQualifies env detected r) :
    scanRecords env detected (r :: rest) = .ok (some r) := by
  obtain ⟨hpe, img, feats, him, hft, hlt⟩ := hq
  simp [scanRecords, hpe, him, hft, hlt]

/-- Detected regions that are processed cleanly with no match are passed
over: scanning their prefix continues with the remaining regions. -/
theorem scanFaces_append_noMatch (env : RecEnv Frame Rect Image ε α)
    (frame : Frame) (records : List FaceRecord) (rpre l : List Rect)
    (h : ∀ q ∈ rpre, regionNoMatch env frame records q) :
    scanFaces env frame records (rpre ++ l) = scanFaces env frame records l := by
  induction rpre with
  | nil => rfl
  | cons q qs ih =>
    have hrest : ∀ q' ∈ qs, regionNoMatch env frame records q' :=
      fun q' hq' => h q' (List.mem_cons_of_mem _ hq')
    obtain ⟨img, detected, hroi, hext, hnone⟩ := h q (List.mem_cons_self _ _)
    simpa [scanFaces, hroi, hext, hnone] using ih hrest

end EngineLemmas

/-- C1: first-match-wins.  If the detected regions split as
`rpre ++ rect :: rrest` where every region of `rpre` scans the registry
cleanly with no match, `rect` crops and featurizes to `detected`, and the
registry splits as `pre ++ r :: rest` where every entry of `pre` is
skipped or scores at most 0.7 while `r` scores strictly above 0.7, then
`recognize_face` returns `r` — regardless of `rest` and `rrest`, so no
later, possibly higher-scoring entry is ever considered and no global
best-score selection takes place. -/
theorem recognize_face_first_match {Frame Rect Image ε α : Type}
    [LinearOrderedField α]
    (env : RecEnv Frame Rect Image ε α) (frame : Frame) (db : FaceDatabase)
    (rpre : List Rect) (rect : Rect) (rrest : List Rect)
    (pre : List FaceRecord) (r : FaceRecord) (rest : List FaceRecord)
    (img : Image) (detected : List α)
    (hdb : db.records = pre ++ r :: rest)
    (hpre : ∀ q ∈ rpre, regionNoMatch env frame db.records q)
    (hroi : env.roi frame rect = .ok img)
    (hext : env.extract_features img = .ok detected)
    (hskip : ∀ p ∈ pre, entrySkippedOrBelow env detected p)
    (hq : entryQualifies env detected r) :
    recognize_face env frame (rpre ++ rect :: rrest) db = .ok (some r) := by
  have hne : db.records ≠ [] := by
    rw [hdb]; exact List.append_ne_nil_of_right_ne_nil _ (by simp)
  simp only [recognize_face, get_authorized_faces]
  rw [if_neg (by simpa [List.isEmpty_iff] using hne)]
  rw [scanFaces_append_noMatch env frame db.records rpre _ hpre]
  simp only [scanFaces, hroi, hext]
  rw [hdb, scanRecords_append_skip env detected pre _ hskip,
    scanRecords_head_match env detected r rest hq]

/-- Witness for C1: the registry is (missing-photo entry, entry scoring
4/5, entry scoring 1).  Entry `recC1_1` clears the 0.7 threshold with
score 4/5; the later entry `recC1_2` would score 1, strictly higher, yet
the engine returns `recC1_1`. -/
theorem recognize_face_first_match_witness :
    entryQualifies envC1 [1, 0] recC1_1 ∧
    entryQualifies envC1 [1, 0] recC1_2 ∧
    compare_faces envC1.sqrtFn [1, 0] [4 / 5, 3 / 5] <
      compare_faces envC1.sqrtFn [1, 0] [1, 0] ∧
    recognize_face envC1 () [0, 1] dbC1 = .ok (some recC1_1) := by
  have hq1 : entryQualifies envC1 [1, 0] recC1_1 := by
    refine ⟨rfl, "e1", [4 / 5, 3 / 5], rfl, rfl, ?_⟩
    show (7 : ℚ) / 10 < compare_faces id [1, 0] [4 / 5, 3 / 5]
    norm_num [compare_faces, simLoop]
  have hq2 : entryQualifies envC1 [1, 0] recC1_2 := by
    refine ⟨rfl, "e2", [1, 0], rfl, rfl, ?_⟩
    show (7 : ℚ) / 10 < compare_faces id [1, 0] [1, 0]
    norm_num [compare_faces, simLoop]
  have hlt : compare_faces envC1.sqrtFn [1, 0] [4 / 5, 3 / 5] <
      compare_faces envC1.sqrtFn [1, 0] [1, 0] := by
    show compare_faces id [(1 : ℚ), 0] [4 / 5, 3 / 5] <
      compare_faces id [(1 : ℚ), 0] [1, 0]
    norm_num [compare_faces, simLoop]
  refine ⟨hq1, hq2, hlt, ?_⟩
  have happ : dbC1.records = [recC1_0] ++ recC1_1 :: [recC1_2] := rfl
  have hskip : ∀ p ∈ [recC1_0], entrySkippedOrBelow envC1 [1, 0] p := by
    intro p hp
    have : p = recC1_0 := by simpa using hp
    subst this
    exact Or.inl rfl
  have := recognize_face_first_match envC1 () dbC1
    [] 0 [1] [recC1_0] recC1_1 [recC1_2] "d" [1, 0]
    happ (by simp) rfl rfl hskip hq1
  simpa using this

/-- C3: with an empty registry snapshot, recognition returns immediately
with no match, for every frame, every region list, and every oracle
environment — in particular for environments whose cropping, loading or
feature extraction always fail, so no extraction or comparison is ever
attempted. -/
theorem recognize_face_empty_registry {Frame Rect Image ε α : Type}
    [LinearOrderedField α]
    (env : RecEnv Frame Rect Image ε α) (frame : Frame) (faces : List Rect)
    (db : FaceDatabase) (h : db.records = []) :
    recognize_face env frame faces db = .ok none := by
  simp [recognize_face, get_authorized_faces, h]

/-- Witness for C3: the empty registry with an always-failing feature
extractor still yields an immediate `(false, none)`. -/
theorem recognize_face_empty_registry_witness :
    (⟨[]⟩ : FaceDatabase).records = [] ∧
    recognize_face envC3 () [(), ()] ⟨[]⟩ = .ok none :=
  ⟨rfl, recognize_face_empty_registry envC3 () [(), ()] ⟨[]⟩ rfl⟩

/-- Counterexample to C4.  Frame with two detected regions: featurizing
region 0 fails, while region 1 on its own matches the single registry
entry (similarity 1 > 0.7).  The claim says region 0 is skipped and
region 1 is still processed, which would produce the match; the code
instead propagates the extraction error out of `recognize_face` (Rust
`?`), so region 1 is never processed and — through the `?` on the
`recognize_face` call in `main` — the capture loop is aborted. -/
theorem recognize_face_extract_error_counterexample :
    recognize_face envC4 () [0, 1] dbC4 = .error () ∧
    recognize_face envC4 () [1] dbC4 = .ok (some recC4) := by
  constructor
  · simp [recognize_face, get_authorized_faces, dbC4, scanFaces, envC4]
  · simp [recognize_face, get_authorized_faces, dbC4, scanFaces,
      scanRecords, envC4, recC4, compare_faces, simLoop]
    norm_num

/-- C4 (amended): when feature extraction fails for a detected region
(the first region processed, with the registry non-empty so the scan is
reached), the error propagates out of `recognize_face` without the
remaining regions being processed; `main` then propagates it further with
`?`, aborting the capture loop. -/
theorem recognize_face_extract_error_propagates {Frame Rect Image ε α : Type}
    [LinearOrderedField α]
    (env : RecEnv Frame Rect Image ε α) (frame : Frame) (rect : Rect)
    (rest : List Rect) (db : FaceDatabase) (img : Image) (e : ε)
    (hne : db.records ≠ [])
    (hroi : env.roi frame rect = .ok img)
    (hext : env.extract_features img = .error e) :
    recognize_face env frame (rect :: rest) db = .error e := by
  simp only [recognize_face, get_authorized_faces]
  rw [if_neg (by simpa [List.isEmpty_iff] using hne)]
  simp [scanFaces, hroi, hext]

/-- Witness for the amended C4: in the two-region scenario the extraction
error of region 0 is the result of the whole call. -/
theorem recognize_face_extract_error_witness :
    dbC4.records ≠ [] ∧
    recognize_face envC4 () [0, 1] dbC4 = .error () := by
  refine ⟨by simp [dbC4], ?_⟩
  exact recognize_face_extract_error_propagates envC4 () 0 [1] dbC4 "bad" ()
    (by simp [dbC4]) rfl (by simp [envC4])

/-! ## Lemmas about the registry monitor -/

/-- `containsKey` tests membership of a key among the listing's file
names. -/
theorem containsKey_iff {l : List (String × Nat)} {n : String} :
    containsKey l n = true ↔ n ∈ l.map Prod.fst := by
  simp [containsKey, List.any_eq_true, List.mem_map]

/-- The extensions compared by the scan are already lowercase. -/
theorem lowercase_jpg : lowercase "jpg" = "jpg" := by decide

/-- C5: a scan that fails (directory enumeration, entry read, metadata
chain, or the directory-creation branch) surfaces the error as its result
and leaves the monitor — both the stored file-listing and the in-memory
registry snapshot — exactly as it was. -/
theorem scan_database_error_atomic {ε : Type} (env : FsEnv ε)
    (m : DatabaseMonitor) (e : ε)
    (h : (scan_database env m).1 = .error e) :
    (scan_database env m).2 = m := by
  unfold scan_database at h ⊢
  by_cases hd : env.dirExists = false
  · simp only [hd, if_true] at h ⊢
    cases hc : env.create_dir <;> simp [hc] at h ⊢
  · simp only [hd, if_false] at h ⊢
    cases hs : scanListing env <;> simp [hs] at h ⊢

/-- Witness for C5: the environment whose enumeration fails with "boom"
leaves the non-trivial monitor state `mC5` untouched. -/
theorem scan_database_error_atomic_witness :
    (scan_database envC5 mC5).1 = .error "boom" ∧
    (scan_database envC5 mC5).2 = mC5 := by
  have h : (scan_database envC5 mC5).1 = .error "boom" := by
    simp [scan_database, scanListing, envC5]
  exact ⟨h, scan_database_error_atomic envC5 mC5 "boom" h⟩

/-- C6: a successful scan of an existing directory replaces the stored
file-listing with the freshly computed one and reports as added exactly
the file names present now but not before, and as removed exactly the
file names present before but not now; a name present in both (or in
neither) is reported as neither added nor removed. -/
theorem scan_database_set_difference {ε : Type} (env : FsEnv ε)
    (m : DatabaseMonitor) (cur : List (String × Nat))
    (hdir : env.dirExists = true) (hcur : scanListing env = .ok cur) :
    (scan_database env m).2.photo_files = cur ∧
    ∀ n : String,
      (n ∈ scanAdded (scan_database env m) ↔
        containsKey cur n = true ∧ containsKey m.photo_files n = false) ∧
      (n ∈ scanRemoved (scan_database env m) ↔
        containsKey m.photo_files n = true ∧ containsKey cur n = false) := by
  have hd : ¬ env.dirExists = false := by simp [hdir]
  constructor
  · simp [scan_database, hd, hcur]
  · intro n
    constructor
    · simp only [scanAdded, scan_database, hd, if_false, hcur]
      simp [List.mem_filter, containsKey_iff]
    · simp only [scanRemoved, scan_database, hd, if_false, hcur]
      simp [List.mem_filter, containsKey_iff]

/-- Witness for C6: after a scan of `{a.jpg, b.jpg}` (producing `mAB`), a
scan of `{b.jpg, c.jpg}` reports `c.jpg` added, `a.jpg` removed, and
`b.jpg` neither, and stores the fresh listing. -/
theorem scan_database_set_difference_witness :
    (scan_database envAB m0).2 = mAB ∧
    scanListing envBC = .ok curBC ∧
    (scan_database envBC mAB).2.photo_files = curBC ∧
    "c.jpg" ∈ scanAdded (scan_database envBC mAB) ∧
    "a.jpg" ∈ scanRemoved (scan_database envBC mAB) ∧
    "b.jpg" ∉ scanAdded (scan_database envBC mAB) ∧
    "b.jpg" ∉ scanRemoved (scan_database envBC mAB) := by
  have hcur : scanListing envBC = .ok curBC := by
    simp [scanListing, envBC, collectFiles, lowercase_jpg, insertKey,
      containsKey, curBC]
  have hmain := scan_database_set_difference envBC mAB curBC rfl hcur
  refine ⟨?_, hcur, hmain.1, ?_, ?_, ?_, ?_⟩
  · simp [scan_database, envAB, scanListing, collectFiles, lowercase_jpg,
      insertKey, containsKey, m0, mAB]
  · exact ((hmain.2 "c.jpg").1).mpr (by simp [containsKey, curBC, mAB])
  · exact ((hmain.2 "a.jpg").2).mpr (by simp [containsKey, curBC, mAB])
  · intro hmem
    have := ((hmain.2 "b.jpg").1).mp hmem
    simp [containsKey, mAB] at this
  · intro hmem
    have := ((hmain.2 "b.jpg").2).mp hmem
    simp [containsKey, curBC] at this

/-! ## Registry removal -/

/-- Filtering out an id that occurs exactly once (the list of ids has no
duplicates and contains it) drops exactly one record. -/
theorem filter_ne_id_length (id : String) :
    ∀ l : List FaceRecord, (l.map FaceRecord.id).Nodup →
      id ∈ l.map FaceRecord.id →
      (l.filter fun r => r.id ≠ id).length + 1 = l.length := by
  intro l
  induction l with
  | nil => intro _ h; simp at h
  | cons r rest ih =>
    intro hnd hmem
    rw [List.map_cons] at hnd hmem
    have hnd' := List.nodup_cons.mp hnd
    rcases List.mem_cons.mp hmem with heq | hmem'
    · have hall : rest.filter (fun x => x.id ≠ id) = rest := by
        apply List.filter_eq_self.mpr
        intro x hx
        simp only [ne_eq, decide_eq_true_eq]
        intro hxid
        have hxmem : id ∈ rest.map FaceRecord.id :=
          hxid ▸ List.mem_map_of_mem FaceRecord.id hx
        exact hnd'.1 (heq ▸ hxmem)
      rw [List.filter_cons, if_neg (by simp [heq]), hall]
      simp
    · have hne : r.id ≠ id := by
        intro h
        exact hnd'.1 (h ▸ hmem')
      have hrec := ih hnd'.2 hmem'
      rw [List.filter_cons, if_pos (by simp [hne])]
      simp only [List.length_cons]
      omega

/-- C7: `remove_face` filters the snapshot by id and persists (reporting
"removed") exactly when the count decreased.  Removing an id absent from
the snapshot leaves it unchanged and reports not-removed; removing a
present id (under the data-model invariant that ids are unique) shrinks
the snapshot by exactly one record, persists it, and reports removed. -/
theorem remove_face_spec (db : FaceDatabase) (id : String) :
    (id ∉ db.records.map FaceRecord.id → remove_face db id = (db, false)) ∧
    ((db.records.map FaceRecord.id).Nodup →
      id ∈ db.records.map FaceRecord.id →
      (remove_face db id).1.records.length + 1 = db.records.length ∧
        (remove_face db id).2 = true) := by
  constructor
  · intro hid
    have hall : db.records.filter (fun record => record.id ≠ id) =
        db.records := by
      apply List.filter_eq_self.mpr
      intro x hx
      simp only [ne_eq, decide_eq_true_eq]
      intro hxid
      exact hid (hxid ▸ List.mem_map_of_mem FaceRecord.id hx)
    unfold remove_face
    rw [hall, if_neg (lt_irrefl _)]
  · intro hnd hmem
    have hlen := filter_ne_id_length id db.records hnd hmem
    have hlt : (db.records.filter fun record => record.id ≠ id).length <
        db.records.length := by omega
    unfold remove_face
    rw [if_pos hlt]
    exact ⟨hlen, rfl⟩

/-- Witness for C7: on the two-record registry, removing the absent id
"3" is a no-op reported as not-removed, and removing the present id "2"
shrinks the registry from two records to one and reports removed. -/
theorem remove_face_spec_witness :
    remove_face dbC7 "3" = (dbC7, false) ∧
    (remove_face dbC7 "2").1.records.length + 1 = dbC7.records.length ∧
    (remove_face dbC7 "2").2 = true := by
  refine ⟨(remove_face_spec dbC7 "3").1 (by simp [dbC7]), ?_⟩
  exact (remove_face_spec dbC7 "2").2 (by simp [dbC7]) (by simp [dbC7])

/-- C8: the recognition-decision cell invariant — the name is present
only when `recognized` is true — holds of the initial cell value and of
the value written by each branch of the capture loop. -/
theorem decision_invariant_preserved :
    decision_invariant initial_last_result ∧
    ∀ matched : Bool, decision_invariant (capture_update matched) := by
  constructor
  · exact Or.inl rfl
  · intro matched
    cases matched
    · exact Or.inl rfl
    · exact Or.inr rfl

end FacialRecognition
